import Mathlib

/-!
Shallow embedding of the chess rule engine in `game-1/game.py`, together with
theorems checking the natural-language specification against it.

Modelling conventions:
* Python `int` coordinates are `Int`; board cells are addressed as
  `board[row][col]` with `row, col ∈ [0, 8)`.
* The board is a list of rows, each a list of optional pieces, exactly as the
  Python `list`-of-`list` representation.  `setCell`/`get_piece` are
  bounds-checked (Python's `get_piece` is bounds-checked; the few direct
  `self.board[r][c]` accesses in the source are only ever executed with
  in-bounds indices, where the two agree.  Python's negative-index wrap-around
  is not modelled; every claim below is stated for in-bounds coordinates).
* Python exceptions are modelled as values: `ValueError` from `find_king`
  surfaces as `none` from `is_in_check`; inside
  `would_be_in_check_after_move` this becomes `Except.error b` carrying the
  board as left behind by the aborted call (the restoration code is NOT run,
  as in the source, which has no try/finally).  `move_piece` maps an escaped
  exception to the `MoveOutcome.fatal` outcome.
* Mutation is explicit state passing: each operation that mutates returns the
  new board/game state alongside its result.
-/

set_option maxRecDepth 10000

inductive Color where
  | white
  | black
deriving DecidableEq

inductive PieceType where
  | pawn
  | rook
  | knight
  | bishop
  | queen
  | king
deriving DecidableEq

/-- `Piece.__init__`: color and type, plus the `has_moved` flag (initially false). -/
structure Piece where
  color : Color
  piece_type : PieceType
  has_moved : Bool
deriving DecidableEq

/-- `ChessBoard.board`: an 8x8 list-of-lists of optional pieces. -/
abbrev Board := List (List (Option Piece))

/-- A record appended to `move_history` by `move_piece` (the Python dict
`{'from': ..., 'to': ..., 'piece': ..., 'captured': ...}`). -/
structure MoveRecord where
  fromPos : String
  toPos : String
  piece : Piece
  captured : Option Piece
deriving DecidableEq

/-- The mutable state of `ChessBoard`: board grid, whose turn it is, and the
move history. -/
structure GameState where
  board : Board
  current_player : Color
  move_history : List MoveRecord
deriving DecidableEq

/-- Outcome of one `move_piece` call.  `ok` is Python's `return True`; the
three rejections are Python's three `return False` branches (distinguished in
the source by the message printed); `fatal` marks an escaped exception
(`ValueError` out of `find_king`), which crashes the Python program. -/
inductive MoveOutcome where
  | ok
  | parseError
  | illegalMove
  | selfCheck
  | fatal
deriving DecidableEq

/-- The index list `range(8)` used by every board scan, as `Int`s. -/
def coords8 : List Int := (List.range 8).map fun n => (n : Int)

/-- The empty 8x8 grid built by `ChessBoard.__init__`. -/
def empty_board : Board := List.replicate 8 (List.replicate 8 none)

/-- `self.board[row][col] = v`, bounds-checked (no-op out of bounds; all
assignments in the source happen at in-bounds indices). -/
def setCell (b : Board) (r c : Int) (v : Option Piece) : Board :=
  if 0 ≤ r ∧ r < 8 ∧ 0 ≤ c ∧ c < 8 then
    match b[r.toNat]? with
    | some row => b.set r.toNat (row.set c.toNat v)
    | none => b
  else b

/-- `ChessBoard.get_piece`: bounds-checked cell read, `None` out of bounds. -/
def get_piece (b : Board) (r c : Int) : Option Piece :=
  if 0 ≤ r ∧ r < 8 ∧ 0 ≤ c ∧ c < 8 then
    match b[r.toNat]? with
    | some row => row[c.toNat]?.getD none
    | none => none
  else none

/-- `ChessBoard.is_valid_position`. -/
def is_valid_position (r c : Int) : Bool :=
  decide (0 ≤ r ∧ r < 8 ∧ 0 ≤ c ∧ c < 8)

/-- `ChessBoard.position_to_coords`: `'e4'`-style notation to `(row, col)`.
Mirrors the Python: length check, `col = ord(position[0].lower()) - ord('a')`,
`row = 8 - int(position[1])`, then the bounds check; any failure raises
`ValueError`, i.e. returns `none` here.  This embeds the ASCII fragment of
the function: `Char.toLower` and the code-48-57 digit test are Python's
`str.lower`/`int` semantics on ASCII characters only.  On non-ASCII input the
Python function diverges from this model in two ways that no shallow
embedding of the Unicode tables can capture: `int` accepts every Unicode
decimal digit (so Python parses a string like "e" followed by the
Arabic-Indic digit five as e5 instead of raising), and `str.lower` can return
a multi-character string (the dotted capital I), making `ord` raise a
`TypeError` that the `except ValueError` in `move_piece` does not catch — a
crash.  Theorems about this parser are therefore stated for ASCII strings,
where the embedding is exact. -/
def position_to_coords (s : String) : Option (Int × Int) :=
  match s.data with
  | [c0, c1] =>
    if c1.isDigit then
      let col : Int := (c0.toLower.toNat : Int) - 97
      let row : Int := 8 - ((c1.toNat : Int) - 48)
      if 0 ≤ row ∧ row < 8 ∧ 0 ≤ col ∧ col < 8 then some (row, col) else none
    else none
  | _ => none

/-- The back-rank `piece_order` list from `setup_board`. -/
def piece_order : List PieceType :=
  [PieceType.rook, PieceType.knight, PieceType.bishop, PieceType.queen,
   PieceType.king, PieceType.bishop, PieceType.knight, PieceType.rook]

/-- `ChessBoard.setup_board`: pawns on rows 1 (black) and 6 (white), then the
back ranks on rows 0 (black) and 7 (white). -/
def setup_board (b : Board) : Board :=
  let b1 := coords8.foldl
    (fun acc c =>
      setCell (setCell acc 1 c (some ⟨Color.black, PieceType.pawn, false⟩))
        6 c (some ⟨Color.white, PieceType.pawn, false⟩))
    b
  (coords8.zip piece_order).foldl
    (fun acc p =>
      setCell (setCell acc 0 p.1 (some ⟨Color.black, p.2, false⟩))
        7 p.1 (some ⟨Color.white, p.2, false⟩))
    b1

/-- `ChessBoard.__init__`: standard setup, White to move, empty history. -/
def new_game : GameState :=
  ⟨setup_board empty_board, Color.white, []⟩

/-- The `while` loop of `is_path_clear`, walking from the cell after the
origin toward the destination.  The loop runs at most 7 iterations for the
aligned in-bounds arguments produced by the rook/bishop/queen rules, so fuel 8
never runs out there (the fuel-exhausted value is irrelevant to every call
made by the program). -/
def is_path_clear_loop (b : Board) (tr tc rd cd : Int) : Nat → Int → Int → Bool
  | 0, _, _ => true
  | n + 1, cr, cc =>
    if cr = tr ∧ cc = tc then true
    else if (get_piece b cr cc).isSome then false
    else is_path_clear_loop b tr tc rd cd n (cr + rd) (cc + cd)

/-- `ChessBoard.is_path_clear`: every cell strictly between origin and
destination (stepping by the componentwise sign of the displacement) is empty. -/
def is_path_clear (b : Board) (from_row from_col to_row to_col : Int) : Bool :=
  let row_dir : Int := if from_row = to_row then 0 else if to_row > from_row then 1 else -1
  let col_dir : Int := if from_col = to_col then 0 else if to_col > from_col then 1 else -1
  is_path_clear_loop b to_row to_col row_dir col_dir 8 (from_row + row_dir) (from_col + col_dir)

/-- The componentwise direction sign computed by `is_path_clear` (its two
`let` bindings are definitionally this function); named so the path-clearance
theorems below can speak about the cells the loop visits. -/
def step_dir (x y : Int) : Int := if x = y then 0 else if y > x then 1 else -1

/-- `ChessBoard.is_valid_pawn_move`.  The `none` branch of the outer match is
unreachable from the dispatch in `is_valid_move` (Python would raise there). -/
def is_valid_pawn_move (b : Board) (from_row from_col to_row to_col : Int) : Bool :=
  match get_piece b from_row from_col with
  | none => false
  | some piece =>
    let direction : Int := if piece.color = Color.white then -1 else 1
    if from_col = to_col then
      if to_row = from_row + direction then
        (get_piece b to_row to_col).isNone
      else if to_row = from_row + 2 * direction ∧ piece.has_moved = false then
        (get_piece b to_row to_col).isNone &&
          (get_piece b (from_row + direction) from_col).isNone
      else false
    else if (from_col - to_col).natAbs = 1 ∧ to_row = from_row + direction then
      match get_piece b to_row to_col with
      | some target => decide (target.color ≠ piece.color)
      | none => false
    else false

/-- `ChessBoard.is_valid_rook_move`. -/
def is_valid_rook_move (b : Board) (from_row from_col to_row to_col : Int) : Bool :=
  if from_row ≠ to_row ∧ from_col ≠ to_col then false
  else is_path_clear b from_row from_col to_row to_col

/-- `ChessBoard.is_valid_knight_move`. -/
def is_valid_knight_move (from_row from_col to_row to_col : Int) : Bool :=
  decide (((to_row - from_row).natAbs = 2 ∧ (to_col - from_col).natAbs = 1) ∨
    ((to_row - from_row).natAbs = 1 ∧ (to_col - from_col).natAbs = 2))

/-- `ChessBoard.is_valid_bishop_move`. -/
def is_valid_bishop_move (b : Board) (from_row from_col to_row to_col : Int) : Bool :=
  if (to_row - from_row).natAbs ≠ (to_col - from_col).natAbs then false
  else is_path_clear b from_row from_col to_row to_col

/-- `ChessBoard.is_valid_queen_move`. -/
def is_valid_queen_move (b : Board) (from_row from_col to_row to_col : Int) : Bool :=
  is_valid_rook_move b from_row from_col to_row to_col ||
    is_valid_bishop_move b from_row from_col to_row to_col

/-- `ChessBoard.is_valid_king_move`. -/
def is_valid_king_move (from_row from_col to_row to_col : Int) : Bool :=
  decide ((to_row - from_row).natAbs ≤ 1 ∧ (to_col - from_col).natAbs ≤ 1 ∧
    ¬(from_row = to_row ∧ from_col = to_col))

/-- The per-piece-type `elif` dispatch chain from `is_valid_move`
(lines 130-143 of the source), factored out so that the spec-side check
predicate below can refer to exactly the same per-piece rules. -/
def piece_rule (b : Board) (p : Piece) (from_row from_col to_row to_col : Int) : Bool :=
  match p.piece_type with
  | PieceType.pawn => is_valid_pawn_move b from_row from_col to_row to_col
  | PieceType.rook => is_valid_rook_move b from_row from_col to_row to_col
  | PieceType.knight => is_valid_knight_move from_row from_col to_row to_col
  | PieceType.bishop => is_valid_bishop_move b from_row from_col to_row to_col
  | PieceType.queen => is_valid_queen_move b from_row from_col to_row to_col
  | PieceType.king => is_valid_king_move from_row from_col to_row to_col

/-- `ChessBoard.is_valid_move` (`cur` is `self.current_player`): no piece at
the origin, a piece that is not the current player's, an out-of-bounds
destination, or a same-color destination piece all reject; otherwise dispatch
on the piece type. -/
def is_valid_move (b : Board) (cur : Color) (from_row from_col to_row to_col : Int) : Bool :=
  match get_piece b from_row from_col with
  | none => false
  | some piece =>
    if piece.color ≠ cur then false
    else if ¬(is_valid_position to_row to_col = true) then false
    else if (match get_piece b to_row to_col with
             | some dest => decide (dest.color = piece.color)
             | none => false) then false
    else piece_rule b piece from_row from_col to_row to_col

/-- `ChessBoard.find_king`: first (row-major) king of the color, `none` when
absent (Python raises `ValueError` there). -/
def find_king (b : Board) (color : Color) : Option (Int × Int) :=
  coords8.findSome? fun r => coords8.findSome? fun c =>
    match get_piece b r c with
    | some p =>
      if p.piece_type = PieceType.king ∧ p.color = color then some (r, c) else none
    | none => none

/-- `ChessBoard.is_in_check` (`cur` is `self.current_player`, consulted by the
`is_valid_move` calls made during the scan): `none` models the `ValueError`
raised when the king is missing. -/
def is_in_check (b : Board) (cur : Color) (color : Color) : Option Bool :=
  match find_king b color with
  | none => none
  | some kpos =>
    some (coords8.any fun r => coords8.any fun c =>
      match get_piece b r c with
      | some p => decide (p.color ≠ color) && is_valid_move b cur r c kpos.1 kpos.2
      | none => false)

/-- `ChessBoard.would_be_in_check_after_move`: place the moved piece, empty
the origin, evaluate `is_in_check(current_player)`, then restore both cells.
When `is_in_check` raises (no king), the restoration lines are never executed
(the source has no try/finally), so the error value carries the still-mutated
board. -/
def would_be_in_check_after_move (b : Board) (cur : Color)
    (from_row from_col to_row to_col : Int) : Except Board (Bool × Board) :=
  let original_piece := get_piece b from_row from_col
  let captured_piece := get_piece b to_row to_col
  let moved := setCell (setCell b to_row to_col original_piece) from_row from_col none
  match is_in_check moved cur cur with
  | none => Except.error moved
  | some in_check =>
    Except.ok (in_check,
      setCell (setCell moved from_row from_col original_piece) to_row to_col captured_piece)

/-- `ChessBoard.move_piece`: parse both positions (failure prints "Invalid
position" and returns False), run `is_valid_move` ("Invalid move!"), run
`would_be_in_check_after_move` ("This move would leave your king in check!"),
then commit: relocate the piece with `has_moved` set, append the move record,
flip `current_player`.  The returned state is the post-call state in every
case. -/
def move_piece (g : GameState) (from_pos to_pos : String) : MoveOutcome × GameState :=
  match position_to_coords from_pos, position_to_coords to_pos with
  | some fc, some tc =>
    if is_valid_move g.board g.current_player fc.1 fc.2 tc.1 tc.2 then
      match would_be_in_check_after_move g.board g.current_player fc.1 fc.2 tc.1 tc.2 with
      | Except.error bAbort => (MoveOutcome.fatal, ⟨bAbort, g.current_player, g.move_history⟩)
      | Except.ok (true, bRestored) =>
        (MoveOutcome.selfCheck, ⟨bRestored, g.current_player, g.move_history⟩)
      | Except.ok (false, bRestored) =>
        match get_piece bRestored fc.1 fc.2 with
        | none =>
          (MoveOutcome.fatal,
            ⟨setCell (setCell bRestored tc.1 tc.2 none) fc.1 fc.2 none,
             g.current_player, g.move_history⟩)
        | some piece =>
          let captured := get_piece bRestored tc.1 tc.2
          let moved : Piece := ⟨piece.color, piece.piece_type, true⟩
          (MoveOutcome.ok,
            ⟨setCell (setCell bRestored tc.1 tc.2 (some moved)) fc.1 fc.2 none,
             (if g.current_player = Color.white then Color.black else Color.white),
             g.move_history ++ [⟨from_pos, to_pos, moved, captured⟩]⟩)
    else (MoveOutcome.illegalMove, g)
  | _, _ => (MoveOutcome.parseError, g)

/-- All `(from_row, from_col, to_row, to_col)` quadruples visited by the
nested loops of `is_checkmate`/`is_stalemate`, in loop order. -/
def allQuads : List (Int × Int × Int × Int) :=
  coords8.flatMap fun fr => coords8.flatMap fun fc =>
    coords8.flatMap fun tr => coords8.map fun tc => (fr, fc, tr, tc)

/-- The shared enumeration loop of `is_checkmate` and `is_stalemate`: scan for
a piece of `color` with a valid move that does not leave `color`'s side in
check (per `would_be_in_check_after_move`).  `some true` means such an escape
move was found (Python `return False` inside the loops); `some false` means
the loops completed; `none` models an escaped exception. -/
def escape_scan (cur color : Color) : Board → List (Int × Int × Int × Int) → Option Bool
  | _, [] => some false
  | b, q :: rest =>
    match get_piece b q.1 q.2.1 with
    | some p =>
      if p.color = color then
        if is_valid_move b cur q.1 q.2.1 q.2.2.1 q.2.2.2 then
          match would_be_in_check_after_move b cur q.1 q.2.1 q.2.2.1 q.2.2.2 with
          | Except.error _ => none
          | Except.ok (true, bNext) => escape_scan cur color bNext rest
          | Except.ok (false, _) => some true
        else escape_scan cur color b rest
      else escape_scan cur color b rest
    | none => escape_scan cur color b rest

/-- `ChessBoard.is_checkmate`: in check, and no escaping move exists. -/
def is_checkmate (b : Board) (cur : Color) (color : Color) : Option Bool :=
  match is_in_check b cur color with
  | none => none
  | some false => some false
  | some true =>
    match escape_scan cur color b allQuads with
    | none => none
    | some true => some false
    | some false => some true

/-- `ChessBoard.is_stalemate`: not in check, and no legal move exists. -/
def is_stalemate (b : Board) (cur : Color) (color : Color) : Option Bool :=
  match is_in_check b cur color with
  | none => none
  | some true => some false
  | some false =>
    match escape_scan cur color b allQuads with
    | none => none
    | some true => some false
    | some false => some true

/-- Run a list of moves in sequence through `move_piece`, collecting the
outcomes (the driver loop of `ChessGame.play` restricted to move commands). -/
def play_moves : GameState → List (String × String) → List MoveOutcome × GameState
  | g, [] => ([], g)
  | g, m :: rest =>
    let step := move_piece g m.1 m.2
    let next := play_moves step.2 rest
    (step.1 :: next.1, next.2)

/-- Pawn movement direction, §4.1 of the spec: White advances toward
decreasing row index, Black toward increasing row index. -/
def pawn_dir (c : Color) : Int := if c = Color.white then -1 else 1

/-- The spec's definition of check (§4.3/§4.4), stated against the same data
model: some opposing piece has a per-piece-legal move (the `piece_rule`
dispatch of §4.3) targeting the King's square, under §4.3's central
preconditions — origin holds that piece, destination in bounds, destination
not a same-color piece.  §4.3 lists no whose-turn precondition, so none
appears here; this is the definition the code's `is_in_check` is compared
against. -/
def spec_in_check (b : Board) (color : Color) : Bool :=
  match find_king b color with
  | none => false
  | some kpos =>
    coords8.any fun r => coords8.any fun c =>
      match get_piece b r c with
      | some p =>
        decide (p.color ≠ color) && is_valid_position kpos.1 kpos.2 &&
          (match get_piece b kpos.1 kpos.2 with
           | some q => decide (q.color ≠ p.color)
           | none => true) &&
          piece_rule b p r c kpos.1 kpos.2
      | none => false

/-- The spec's well-formed position strings (§6): a file letter a-h,
case-insensitive (lower-cased code 97-104), followed by a rank digit 1-8
(code 49-56). -/
def good_position_string (s : String) : Bool :=
  match s.data with
  | [c0, c1] =>
    decide (97 ≤ c0.toLower.toNat ∧ c0.toLower.toNat ≤ 104 ∧
      49 ≤ c1.toNat ∧ c1.toNat ≤ 56)
  | _ => false

/-- Place pieces on an empty grid (input-building convenience for the
concrete boards below). -/
def place_pieces (ps : List (Int × Int × Piece)) : Board :=
  ps.foldl (fun acc x => setCell acc x.1 x.2.1 (some x.2.2)) empty_board

/-- White king e1, black rook e8 (clear file between them), black king a8;
White to move.  The spec says White is in check here. -/
def rook_check_board : Board :=
  place_pieces [(7, 4, ⟨Color.white, PieceType.king, false⟩),
                (0, 4, ⟨Color.black, PieceType.rook, false⟩),
                (0, 0, ⟨Color.black, PieceType.king, false⟩)]

/-- White king e1 shielded by white rook e2 from the black rook e8; black
king a8; White to move.  Moving the e2 rook away exposes the white king. -/
def exposed_king_state : GameState :=
  ⟨place_pieces [(7, 4, ⟨Color.white, PieceType.king, false⟩),
                 (6, 4, ⟨Color.white, PieceType.rook, false⟩),
                 (0, 4, ⟨Color.black, PieceType.rook, false⟩),
                 (0, 0, ⟨Color.black, PieceType.king, false⟩)],
   Color.white, []⟩

/-- The scholar's-mate move sequence of spec §8. -/
def scholars_mate_moves : List (String × String) :=
  [("e2", "e4"), ("e7", "e5"), ("f1", "c4"), ("b8", "c6"),
   ("d1", "h5"), ("g8", "f6"), ("h5", "f7")]

/-- A board with no white king: black king a8, white pawn a2; used to drive
`would_be_in_check_after_move` into its exception path. -/
def kingless_board : Board :=
  place_pieces [(0, 0, ⟨Color.black, PieceType.king, false⟩),
                (6, 0, ⟨Color.white, PieceType.pawn, false⟩)]

/-- `kingless_board` with the white pawn already moved a2→a3: the state
`would_be_in_check_after_move` leaves behind when `is_in_check` raises. -/
def kingless_board_mutated : Board :=
  setCell (setCell kingless_board 5 0 (some ⟨Color.white, PieceType.pawn, false⟩)) 6 0 none

/-- A lone black king with White to move: the engine reports stalemate for
Black here (every black reply fails `is_valid_move`'s turn test). -/
def lone_black_king_board : Board :=
  place_pieces [(0, 0, ⟨Color.black, PieceType.king, false⟩)]

/-! ## Cell access algebra

`setCell`/`get_piece` interaction lemmas, used to prove that the
mutate-then-restore pattern of `would_be_in_check_after_move` really returns
the board it started from. -/

theorem list_set_of_getElem?_eq {α : Type} :
    ∀ (l : List α) (i : Nat) (a : α), l[i]? = some a → l.set i a = l := by
  intro l
  induction l with
  | nil => intro i a h; simp at h
  | cons x xs ih =>
    intro i a h
    cases i with
    | zero =>
      simp at h
      simp [List.set, h]
    | succ n =>
      simp only [List.getElem?_cons_succ] at h
      simp only [List.set]
      rw [ih n a h]

theorem list_set_of_getElem?_none {α : Type} (l : List α) (i : Nat) (a : α)
    (h : l[i]? = none) : l.set i a = l := by
  apply List.set_eq_of_length_le
  simpa [List.getElem?_eq_none_iff] using h

/-- Writing back the value just read is a no-op. -/
theorem setCell_get_self (b : Board) (r c : Int) :
    setCell b r c (get_piece b r c) = b := by
  unfold setCell get_piece
  by_cases hb : 0 ≤ r ∧ r < 8 ∧ 0 ≤ c ∧ c < 8
  · simp only [if_pos hb]
    rcases hrow : b[r.toNat]? with _ | row
    · rfl
    · dsimp only
      rcases hcol : row[c.toNat]? with _ | v
      · simp only [Option.getD_none]
        rw [list_set_of_getElem?_none row c.toNat none hcol]
        exact list_set_of_getElem?_eq b r.toNat row hrow
      · simp only [Option.getD_some]
        rw [list_set_of_getElem?_eq row c.toNat v hcol]
        exact list_set_of_getElem?_eq b r.toNat row hrow
  · simp [if_neg hb]

/-- Two writes to the same cell: only the second survives. -/
theorem setCell_setCell_same (b : Board) (r c : Int) (v w : Option Piece) :
    setCell (setCell b r c v) r c w = setCell b r c w := by
  unfold setCell
  by_cases hb : 0 ≤ r ∧ r < 8 ∧ 0 ≤ c ∧ c < 8
  · simp only [if_pos hb]
    rcases hrow : b[r.toNat]? with _ | row
    · simp only [hrow]
    · have hlen : r.toNat < b.length := (List.getElem?_eq_some_iff.mp hrow).1
      have hrow2 : (b.set r.toNat (row.set c.toNat v))[r.toNat]? =
          some (row.set c.toNat v) := by
        simp [List.getElem?_set_self, hlen]
      simp only [hrow2]
      rw [List.set_set, List.set_set]
  · simp [if_neg hb]

/-- Reading a cell other than the one written sees the old board. -/
theorem get_setCell_ne (b : Board) (r1 c1 r2 c2 : Int) (v : Option Piece)
    (hne : ¬(r1 = r2 ∧ c1 = c2)) :
    get_piece (setCell b r2 c2 v) r1 c1 = get_piece b r1 c1 := by
  unfold setCell get_piece
  by_cases hb2 : 0 ≤ r2 ∧ r2 < 8 ∧ 0 ≤ c2 ∧ c2 < 8
  · simp only [if_pos hb2]
    rcases hrow2 : b[r2.toNat]? with _ | row2
    · rfl
    · by_cases hb1 : 0 ≤ r1 ∧ r1 < 8 ∧ 0 ≤ c1 ∧ c1 < 8
      · simp only [if_pos hb1]
        by_cases hr : r1 = r2
        · have hc : c1 ≠ c2 := fun hc => hne ⟨hr, hc⟩
          subst hr
          have hlen : r1.toNat < b.length := (List.getElem?_eq_some_iff.mp hrow2).1
          have e1 : (b.set r1.toNat (row2.set c2.toNat v))[r1.toNat]? =
              some (row2.set c2.toNat v) := by
            simp [List.getElem?_set_self, hlen]
          have e2 : (row2.set c2.toNat v)[c1.toNat]? = row2[c1.toNat]? :=
            List.getElem?_set_ne (by omega : c2.toNat ≠ c1.toNat)
          simp only [e1, hrow2, e2]
        · have e1 : (b.set r2.toNat (row2.set c2.toNat v))[r1.toNat]? = b[r1.toNat]? :=
            List.getElem?_set_ne (by omega : r2.toNat ≠ r1.toNat)
          simp only [e1]
      · simp [if_neg hb1]
  · simp [if_neg hb2]

/-- The mutate-check-restore sequence of `would_be_in_check_after_move`
restores the exact starting board whenever the check evaluation completes
(i.e. whenever no exception escapes). -/
theorem would_be_in_check_restores (b : Board) (cur : Color)
    (fr fc tr tc : Int) (v : Bool) (bOut : Board)
    (h : would_be_in_check_after_move b cur fr fc tr tc = Except.ok (v, bOut)) :
    bOut = b := by
  simp only [would_be_in_check_after_move] at h
  rcases hic : is_in_check
      (setCell (setCell b tr tc (get_piece b fr fc)) fr fc none) cur cur with _ | ic
  · rw [hic] at h; cases h
  · rw [hic] at h
    injection h with h'
    injection h' with h1 h2
    subst h2
    by_cases hsame : fr = tr ∧ fc = tc
    · obtain ⟨e1, e2⟩ := hsame
      subst e1; subst e2
      rw [setCell_setCell_same, setCell_setCell_same, setCell_setCell_same]
      exact setCell_get_self _ _ _
    · have horig : get_piece (setCell b tr tc (get_piece b fr fc)) fr fc =
          get_piece b fr fc := get_setCell_ne b fr fc tr tc (get_piece b fr fc) hsame
      rw [setCell_setCell_same]
      have step1 : setCell (setCell b tr tc (get_piece b fr fc)) fr fc (get_piece b fr fc) =
          setCell b tr tc (get_piece b fr fc) := by
        have hx := setCell_get_self (setCell b tr tc (get_piece b fr fc)) fr fc
        rw [horig] at hx
        exact hx
      rw [step1, setCell_setCell_same]
      exact setCell_get_self _ _ _

/-! ## Claim theorems -/

/-- C10: for every board, current player and position, `is_valid_move`
rejects the zero-displacement move from a square to itself: with no piece the
origin check fails, and with a piece either the turn check or the
same-color-destination check fails, so no per-piece rule is ever consulted. -/
theorem null_move_always_invalid (b : Board) (cur : Color) (r c : Int) :
    is_valid_move b cur r c r c = false := by
  rcases hg : get_piece b r c with _ | p
  · simp [is_valid_move, hg]
  · simp [is_valid_move, hg]

/-- C5: whenever `move_piece` rejects (invalid notation, illegal move, or
self-check), the returned game state — board, current player and move
history — is exactly the input state: no partial mutation survives the call.
The self-check branch relies on `would_be_in_check_restores`. -/
theorem rejected_move_leaves_state_unchanged (g : GameState) (fp tp : String)
    (out : MoveOutcome) (gOut : GameState)
    (h : move_piece g fp tp = (out, gOut))
    (hrej : out = MoveOutcome.parseError ∨ out = MoveOutcome.illegalMove ∨
      out = MoveOutcome.selfCheck) :
    gOut = g := by
  unfold move_piece at h
  rcases hf : position_to_coords fp with _ | fcoord
  all_goals rw [hf] at h
  · injection h with h1 h2; exact h2.symm
  rcases ht : position_to_coords tp with _ | tcoord
  all_goals rw [ht] at h
  · injection h with h1 h2; exact h2.symm
  dsimp only at h
  by_cases hv : is_valid_move g.board g.current_player fcoord.1 fcoord.2 tcoord.1 tcoord.2
  · rw [if_pos hv] at h
    rcases hw : would_be_in_check_after_move g.board g.current_player
        fcoord.1 fcoord.2 tcoord.1 tcoord.2 with bAbort | vb
    · rw [hw] at h
      injection h with h1 h2
      subst h1
      rcases hrej with h | h | h <;> cases h
    · rcases vb with ⟨inCheck, bRest⟩
      have hbrest : bRest = g.board :=
        would_be_in_check_restores g.board g.current_player
          fcoord.1 fcoord.2 tcoord.1 tcoord.2 inCheck bRest hw
      rw [hw] at h
      cases inCheck
      · dsimp only at h
        rcases hgp : get_piece bRest fcoord.1 fcoord.2 with _ | piece
        all_goals try rw [hgp] at h
        all_goals injection h with h1 h2
        all_goals subst h1
        all_goals rcases hrej with hx | hx | hx <;> cases hx
      · dsimp only at h
        injection h with h1 h2
        subst hbrest
        rw [← h2]
  · rw [if_neg hv] at h
    injection h with h1 h2
    exact h2.symm

/-- Witness for C5: an attempt to move Black's e7 pawn on White's first turn
is rejected, and the state afterwards is the initial state. -/
theorem rejected_move_leaves_state_unchanged_witness :
    (move_piece new_game "e7" "e5").2 = new_game :=
  rejected_move_leaves_state_unchanged new_game "e7" "e5"
    (move_piece new_game "e7" "e5").1 (move_piece new_game "e7" "e5").2
    rfl (by decide)

/-- C9: `is_checkmate` demands `is_in_check` true while `is_stalemate`
demands it false (and both propagate the same missing-king failure), so the
two can never report true for the same state and color. -/
theorem stalemate_excludes_checkmate (b : Board) (cur color : Color)
    (h : is_stalemate b cur color = some true) :
    is_checkmate b cur color ≠ some true := by
  unfold is_stalemate at h
  unfold is_checkmate
  rcases hic : is_in_check b cur color with _ | ic
  · simp [hic] at h
  · cases ic
    · simp [hic]
    · simp [hic] at h

/-- Witness for C9: with only a black king on the board and White to move,
the engine reports stalemate for Black, so checkmate must not also hold. -/
theorem stalemate_excludes_checkmate_witness :
    is_checkmate lone_black_king_board Color.white Color.black ≠ some true :=
  stalemate_excludes_checkmate lone_black_king_board Color.white Color.black (by decide)

/-- C1 fails on the code: with White to move and White's king plainly
attacked by the black rook down the open e-file (which is exactly the spec's
§4.3/§4.4 notion of check, `spec_in_check`), `is_in_check(White)` still
returns false — the turn test inside `is_valid_move` discards every black
attacker while it is White's turn. -/
theorem is_in_check_misses_rook_attack :
    is_in_check rook_check_board Color.white Color.white = some false ∧
    spec_in_check rook_check_board Color.white = true := by
  constructor
  · decide
  · decide

/-- C2 fails on the code: moving the shielding rook e2→a2 exposes White's
king to the black rook (spec-level check on the resulting board), yet
`move_piece` commits the move with outcome `ok` instead of rejecting it —
`would_be_in_check_after_move` consults the broken `is_in_check`, which never
sees an attack on the side to move. -/
theorem self_check_move_committed :
    (move_piece exposed_king_state "e2" "a2").1 = MoveOutcome.ok ∧
    spec_in_check (move_piece exposed_king_state "e2" "a2").2.board Color.white = true := by
  constructor
  · decide
  · decide

/-- C3 fails on the code: all seven scholar's-mate moves are accepted and the
final board has Black's king attacked by the white queen on f7 (spec-level
check), but `is_checkmate(Black)` — queried, as the game loop does, with
Black now the current player — returns false rather than the required true,
because `is_in_check(Black)` ignores all white attackers during Black's turn. -/
theorem scholars_mate_not_detected :
    (play_moves new_game scholars_mate_moves).1 = List.replicate 7 MoveOutcome.ok ∧
    (play_moves new_game scholars_mate_moves).2.current_player = Color.black ∧
    is_checkmate (play_moves new_game scholars_mate_moves).2.board
      (play_moves new_game scholars_mate_moves).2.current_player Color.black = some false ∧
    spec_in_check (play_moves new_game scholars_mate_moves).2.board Color.black = true := by
  refine ⟨by decide, by decide, by decide, by decide⟩

/-- C4 fails on the code: on a board with no white king, simulating the white
pawn move a2→a3 makes `is_in_check` raise, and
`would_be_in_check_after_move` aborts with the board still mutated (the pawn
sits on a3) — the restoration the spec demands on the failure path never
runs. -/
theorem restoration_skipped_on_missing_king :
    would_be_in_check_after_move kingless_board Color.white 6 0 5 0 =
      Except.error kingless_board_mutated ∧
    kingless_board_mutated ≠ kingless_board := by
  constructor
  · rfl
  · decide

/-! ## Notation parsing -/

/-- The string is all-ASCII: the fragment on which `position_to_coords` is an
exact embedding of the Python parser. -/
def ascii_string (s : String) : Bool := s.data.all fun c => decide (c.toNat < 128)

theorem char_isDigit_iff (c : Char) : c.isDigit = true ↔ (48 ≤ c.toNat ∧ c.toNat ≤ 57) := by
  simp [Char.isDigit, UInt32.le_def, Char.toNat, BitVec.le_def, UInt32.toNat]

theorem isSome_ite {α : Type} (P : Prop) [Decidable P] (x : α) :
    (if P then some x else none).isSome = decide P := by
  by_cases hP : P <;> simp [hP]

/-- The embedded parser succeeds exactly on the spec's well-formed strings:
a file letter a-h (case-insensitive) followed by a rank digit 1-8.  (For the
Python original this equivalence holds on ASCII strings; see the doc comment
of `position_to_coords`.) -/
theorem position_to_coords_isSome_iff (s : String) :
    (position_to_coords s).isSome = good_position_string s := by
  unfold position_to_coords good_position_string
  rcases hd : s.data with _ | ⟨c0, _ | ⟨c1, _ | ⟨c2, rest⟩⟩⟩
  · rfl
  · rfl
  · dsimp only
    by_cases hdig : c1.isDigit
    · rw [if_pos hdig, isSome_ite]
      have hdr := (char_isDigit_iff c1).mp hdig
      rw [decide_eq_decide]
      omega
    · rw [if_neg hdig]
      symm
      simp only [Option.isSome_none]
      rw [decide_eq_false_iff_not]
      intro hq
      exact hdig ((char_isDigit_iff c1).mpr (by omega))
  · rfl

/-- The true, ASCII-scoped part of the notation-validation property: for
every game state and every pair of ASCII position strings of which at least
one is not a file letter a-h (case-insensitive) followed by a rank digit
1-8 — in particular "i9" and "e0" — `move_piece` stops at notation parsing
with the invalid-notation rejection and returns the state untouched; no
board indexing happens on that path.  On ASCII strings the embedding of the
parser is exact, so this is a statement about the program; without the ASCII
restriction the property is false of the Python code (Unicode decimal digits
are accepted by `int`, and one character even crashes `ord` after `lower`),
which is why the universal claim is reported as a code bug rather than
through this theorem. -/
theorem ascii_bad_position_rejected (g : GameState) (fp tp : String)
    (hfa : ascii_string fp = true) (hta : ascii_string tp = true)
    (h : good_position_string fp = false ∨ good_position_string tp = false) :
    move_piece g fp tp = (MoveOutcome.parseError, g) := by
  have key : ∀ s : String, good_position_string s = false → position_to_coords s = none := by
    intro s hs
    have hiff := position_to_coords_isSome_iff s
    rw [hs] at hiff
    exact Option.not_isSome_iff_eq_none.mp (by simp [hiff])
  unfold move_piece
  rcases hfp : position_to_coords fp with _ | fc0
  · rcases htp : position_to_coords tp with _ | tc0 <;> rfl
  · rcases htp : position_to_coords tp with _ | tc0
    · rfl
    · rcases h with h | h
      · rw [key fp h] at hfp; cases hfp
      · rw [key tp h] at htp; cases htp

/-- The spec's own examples "i9" and "e0" (both ASCII) are rejected as
invalid notation from the initial position, leaving the state unchanged. -/
theorem ascii_bad_position_rejected_witness :
    move_piece new_game "i9" "e0" = (MoveOutcome.parseError, new_game) :=
  ascii_bad_position_rejected new_game "i9" "e0" (by decide) (by decide)
    (Or.inl (by decide))

/-! ## Pawn rule (C6) -/

/-- The pawn rule of `is_valid_pawn_move`, restated as the spec's three-way
disjunction (§4.3): single forward step into an empty cell, double forward
step from the un-moved state with both cells empty, or a one-square forward
diagonal capture of an opposing piece. -/
theorem is_valid_pawn_move_iff (b : Board) (fr fc tr tc : Int) (p : Piece)
    (hp : get_piece b fr fc = some p) :
    (is_valid_pawn_move b fr fc tr tc = true ↔
      ((tc = fc ∧ tr = fr + pawn_dir p.color ∧ get_piece b tr tc = none) ∨
       (tc = fc ∧ tr = fr + 2 * pawn_dir p.color ∧ p.has_moved = false ∧
         get_piece b (fr + pawn_dir p.color) fc = none ∧ get_piece b tr tc = none) ∨
       ((tc - fc).natAbs = 1 ∧ tr = fr + pawn_dir p.color ∧
         ∃ q, get_piece b tr tc = some q ∧ q.color ≠ p.color))) := by
  have hdpm : pawn_dir p.color = -1 ∨ pawn_dir p.color = 1 := by
    unfold pawn_dir
    by_cases hc : p.color = Color.white
    · left; rw [if_pos hc]
    · right; rw [if_neg hc]
  have hdir : (if p.color = Color.white then (-1 : Int) else 1) = pawn_dir p.color := rfl
  unfold is_valid_pawn_move
  rw [hp]
  dsimp only
  rw [hdir]
  by_cases hcol : fc = tc
  · rw [if_pos hcol]
    by_cases hone : tr = fr + pawn_dir p.color
    · rw [if_pos hone]
      constructor
      · intro hnone
        exact Or.inl ⟨hcol.symm, hone, Option.isNone_iff_eq_none.mp hnone⟩
      · intro hrhs
        rcases hrhs with ⟨_, _, hn⟩ | ⟨_, h2, _⟩ | ⟨h3, _, _⟩
        · simpa [Option.isNone_iff_eq_none] using hn
        · exfalso; omega
        · exfalso; omega
    · rw [if_neg hone]
      by_cases htwo : tr = fr + 2 * pawn_dir p.color ∧ p.has_moved = false
      · rw [if_pos htwo]
        constructor
        · intro hand
          rw [Bool.and_eq_true] at hand
          exact Or.inr (Or.inl ⟨hcol.symm, htwo.1, htwo.2,
            Option.isNone_iff_eq_none.mp hand.2, Option.isNone_iff_eq_none.mp hand.1⟩)
        · intro hrhs
          rcases hrhs with ⟨_, h1, _⟩ | ⟨_, _, _, hmid, hdst⟩ | ⟨h3, _, _⟩
          · exact absurd h1 hone
          · rw [Bool.and_eq_true]
            exact ⟨Option.isNone_iff_eq_none.mpr hdst, Option.isNone_iff_eq_none.mpr hmid⟩
          · exfalso; omega
      · rw [if_neg htwo]
        constructor
        · intro hfalse; cases hfalse
        · intro hrhs
          rcases hrhs with ⟨_, h1, _⟩ | ⟨_, h2, hm, _⟩ | ⟨h3, _, _⟩
          · exact absurd h1 hone
          · exact (htwo ⟨h2, hm⟩).elim
          · exfalso; omega
  · rw [if_neg hcol]
    by_cases hdiag : (fc - tc).natAbs = 1 ∧ tr = fr + pawn_dir p.color
    · rw [if_pos hdiag]
      rcases hdst : get_piece b tr tc with _ | q
      · constructor
        · intro hfalse; cases hfalse
        · intro hrhs
          rcases hrhs with ⟨h1, _, _⟩ | ⟨h1, _, _⟩ | ⟨_, _, q, hq, _⟩
          · exact absurd h1.symm hcol
          · exact absurd h1.symm hcol
          · simp at hq
      · constructor
        · intro hdec
          rw [decide_eq_true_eq] at hdec
          exact Or.inr (Or.inr ⟨by omega, hdiag.2, q, rfl, hdec⟩)
        · intro hrhs
          rw [decide_eq_true_eq]
          rcases hrhs with ⟨h1, _, _⟩ | ⟨h1, _, _⟩ | ⟨_, _, q2, hq2, hqc⟩
          · exact absurd h1.symm hcol
          · exact absurd h1.symm hcol
          · injection hq2 with hq2e; rw [hq2e]; exact hqc
    · rw [if_neg hdiag]
      constructor
      · intro hfalse; cases hfalse
      · intro hrhs
        rcases hrhs with ⟨h1, _, _⟩ | ⟨h1, _, _⟩ | ⟨h3, h4, _⟩
        · exact absurd h1.symm hcol
        · exact absurd h1.symm hcol
        · exact (hdiag ⟨by omega, h4⟩).elim

/-- C6: under the central preconditions (origin holds the mover's pawn,
destination in bounds and not same-color), the central legality check accepts
a pawn move exactly when it is a one-square forward move into an empty cell,
a two-square forward move of a never-moved pawn over two empty cells, or a
one-square forward diagonal capture of an opposing piece; and concretely,
after a pawn advances one square (e2→e3), its later two-square advance
(e3→e5) is rejected as an illegal move because `has_moved` is now true. -/
theorem pawn_legality_and_double_step :
    (∀ (b : Board) (cur : Color) (fr fc tr tc : Int) (p : Piece),
      get_piece b fr fc = some p → p.piece_type = PieceType.pawn → p.color = cur →
      is_valid_position tr tc = true →
      Option.all (fun q => decide (q.color ≠ p.color)) (get_piece b tr tc) = true →
      (is_valid_move b cur fr fc tr tc = true ↔
        ((tc = fc ∧ tr = fr + pawn_dir p.color ∧ get_piece b tr tc = none) ∨
         (tc = fc ∧ tr = fr + 2 * pawn_dir p.color ∧ p.has_moved = false ∧
           get_piece b (fr + pawn_dir p.color) fc = none ∧ get_piece b tr tc = none) ∨
         ((tc - fc).natAbs = 1 ∧ tr = fr + pawn_dir p.color ∧
           ∃ q, get_piece b tr tc = some q ∧ q.color ≠ p.color)))) ∧
    (move_piece (play_moves new_game [("e2", "e3"), ("e7", "e6")]).2 "e3" "e5" =
      (MoveOutcome.illegalMove, (play_moves new_game [("e2", "e3"), ("e7", "e6")]).2)) := by
  constructor
  · intro b cur fr fc tr tc p hp hpt hcur hbound hdest
    have hred : is_valid_move b cur fr fc tr tc = is_valid_pawn_move b fr fc tr tc := by
      unfold is_valid_move
      rw [hp]
      dsimp only
      rw [if_neg (fun hne => hne hcur)]
      rw [if_neg (fun hn => hn hbound)]
      rcases hq : get_piece b tr tc with _ | q
      · dsimp only
        rw [if_neg (by simp)]
        obtain ⟨pc, pt, pm⟩ := p
        dsimp only at hpt
        subst hpt
        rfl
      · dsimp only
        rw [hq] at hdest
        dsimp only [Option.all] at hdest
        rw [decide_eq_true_eq] at hdest
        rw [if_neg (by simp [hdest])]
        obtain ⟨pc, pt, pm⟩ := p
        dsimp only at hpt
        subst hpt
        rfl
    rw [hred]
    exact is_valid_pawn_move_iff b fr fc tr tc p hp
  · decide

/-- Witness for C6: the initial e2 pawn's single forward step to e3 is legal
via the forward-into-empty clause of the rule. -/
theorem pawn_legality_and_double_step_witness :
    is_valid_move new_game.board Color.white 6 4 5 4 = true :=
  (pawn_legality_and_double_step.1 new_game.board Color.white 6 4 5 4
    ⟨Color.white, PieceType.pawn, false⟩ (by decide) rfl rfl (by decide) (by decide)).mpr
    (Or.inl ⟨rfl, by decide, by decide⟩)

/-! ## Path-clearance symmetry (C8) -/

/-- What the `while` loop of `is_path_clear` computes when aimed at the
target `(fr + d*rd, fc + d*cd)` and started `i` steps along the walk, given
enough fuel: all strictly-between cells of the remaining walk are empty. -/
theorem is_path_clear_loop_spec (b : Board) (fr fc rd cd : Int) (d : Nat)
    (hne : rd ≠ 0 ∨ cd ≠ 0) :
    ∀ (n i : Nat), 1 ≤ i → i ≤ d → d - i < n →
    (is_path_clear_loop b (fr + d * rd) (fc + d * cd) rd cd n
        (fr + i * rd) (fc + i * cd) = true ↔
      ∀ k : Nat, i ≤ k → k < d → get_piece b (fr + k * rd) (fc + k * cd) = none) := by
  intro n
  induction n with
  | zero => intro i h1 h2 h3; omega
  | succ m ih =>
    intro i h1 h2 h3
    by_cases hid : i = d
    · subst hid
      rw [is_path_clear_loop]
      rw [if_pos ⟨rfl, rfl⟩]
      constructor
      · intro _ k hk1 hk2; omega
      · intro _; rfl
    · have hlt : i < d := Nat.lt_of_le_of_ne h2 hid
      have hcond : ¬(fr + (i : Int) * rd = fr + (d : Int) * rd ∧
          fc + (i : Int) * cd = fc + (d : Int) * cd) := by
        rintro ⟨ha, hb⟩
        have hia : (i : Int) ≠ (d : Int) := by exact_mod_cast hid
        rcases hne with hrd | hcd
        · have hmul : (i : Int) * rd = (d : Int) * rd := by linarith
          exact hia (mul_right_cancel₀ hrd hmul)
        · have hmul : (i : Int) * cd = (d : Int) * cd := by linarith
          exact hia (mul_right_cancel₀ hcd hmul)
      rw [is_path_clear_loop]
      rw [if_neg hcond]
      rcases hocc : get_piece b (fr + i * rd) (fc + i * cd) with _ | pc
      · simp only [Option.isSome_none, Bool.false_eq_true, if_false]
        have e1 : fr + (i : Int) * rd + rd = fr + ((i + 1 : Nat) : Int) * rd := by
          push_cast; ring
        have e2 : fc + (i : Int) * cd + cd = fc + ((i + 1 : Nat) : Int) * cd := by
          push_cast; ring
        rw [e1, e2, ih (i + 1) (by omega) (by omega) (by omega)]
        constructor
        · intro hall k hk1 hk2
          rcases Nat.eq_or_lt_of_le hk1 with he | hlt2
          · rw [← he]; exact hocc
          · exact hall k hlt2 hk2
        · intro hall k hk1 hk2
          exact hall k (by omega) hk2
      · simp only [Option.isSome_some, if_true]
        constructor
        · intro hfalse; cases hfalse
        · intro hall
          rw [hall i le_rfl hlt] at hocc
          cases hocc

/-- For aligned endpoints, each axis of the target is the origin plus the
chebyshev distance times that axis's step direction. -/
theorem path_axis_decomp (fr fc tr tc : Int)
    (hal : fr = tr ∨ fc = tc ∨ (tr - fr).natAbs = (tc - fc).natAbs) :
    tr = fr + ((max (tr - fr).natAbs (tc - fc).natAbs : Nat) : Int) * step_dir fr tr ∧
    tc = fc + ((max (tr - fr).natAbs (tc - fc).natAbs : Nat) : Int) * step_dir fc tc := by
  unfold step_dir
  refine ⟨?_, ?_⟩ <;> split_ifs <;> rcases hal with ha | ha | ha <;> omega

theorem step_dir_ne_zero (x y : Int) (h : x ≠ y) : step_dir x y ≠ 0 := by
  unfold step_dir
  rw [if_neg h]
  split_ifs <;> decide

/-- `is_path_clear` on aligned, distinct, in-bounds endpoints holds exactly
when every strictly-between cell of the segment is empty. -/
theorem is_path_clear_spec (b : Board) (fr fc tr tc : Int)
    (hf : is_valid_position fr fc = true) (ht : is_valid_position tr tc = true)
    (hne : ¬(fr = tr ∧ fc = tc))
    (hal : fr = tr ∨ fc = tc ∨ (tr - fr).natAbs = (tc - fc).natAbs) :
    (is_path_clear b fr fc tr tc = true ↔
      ∀ k : Nat, 1 ≤ k → k < max (tr - fr).natAbs (tc - fc).natAbs →
        get_piece b (fr + k * step_dir fr tr) (fc + k * step_dir fc tc) = none) := by
  obtain ⟨htr, htc⟩ := path_axis_decomp fr fc tr tc hal
  have hdiff : fr ≠ tr ∨ fc ≠ tc := by
    rcases Decidable.em (fr = tr) with h | h
    · exact Or.inr (fun hc => hne ⟨h, hc⟩)
    · exact Or.inl h
  have hfb : 0 ≤ fr ∧ fr < 8 ∧ 0 ≤ fc ∧ fc < 8 := by
    simpa [is_valid_position] using hf
  have htb : 0 ≤ tr ∧ tr < 8 ∧ 0 ≤ tc ∧ tc < 8 := by
    simpa [is_valid_position] using ht
  have hd1 : 1 ≤ max (tr - fr).natAbs (tc - fc).natAbs := by
    rcases hdiff with h | h <;> omega
  have hd7 : max (tr - fr).natAbs (tc - fc).natAbs ≤ 7 := by omega
  have hne2 : step_dir fr tr ≠ 0 ∨ step_dir fc tc ≠ 0 := by
    rcases hdiff with h | h
    · exact Or.inl (step_dir_ne_zero fr tr h)
    · exact Or.inr (step_dir_ne_zero fc tc h)
  have hfold : is_path_clear b fr fc tr tc =
      is_path_clear_loop b tr tc (step_dir fr tr) (step_dir fc tc) 8
        (fr + step_dir fr tr) (fc + step_dir fc tc) := rfl
  rw [hfold]
  generalize hs : step_dir fr tr = s at htr hne2 ⊢
  generalize hu : step_dir fc tc = u at htc hne2 ⊢
  generalize hdd : max (tr - fr).natAbs (tc - fc).natAbs = d at htr htc hd1 hd7 ⊢
  have e1 : fr + s = fr + ((1 : Nat) : Int) * s := by push_cast; ring
  have e2 : fc + u = fc + ((1 : Nat) : Int) * u := by push_cast; ring
  rw [htr, htc, e1, e2]
  exact is_path_clear_loop_spec b fr fc s u d hne2 8 1 le_rfl hd1 (by omega)

/-- C8: for distinct in-bounds positions aligned horizontally, vertically or
diagonally, `is_path_clear` gives the same answer in both directions on every
board: the two walks visit exactly the same strictly-between cells, in
opposite orders. -/
theorem is_path_clear_symmetric (b : Board) (fr fc tr tc : Int)
    (hf : is_valid_position fr fc = true) (ht : is_valid_position tr tc = true)
    (hne : ¬(fr = tr ∧ fc = tc))
    (hal : fr = tr ∨ fc = tc ∨ (tr - fr).natAbs = (tc - fc).natAbs) :
    is_path_clear b fr fc tr tc = is_path_clear b tr tc fr fc := by
  have hne2 : ¬(tr = fr ∧ tc = fc) := fun hx => hne ⟨hx.1.symm, hx.2.symm⟩
  have hal2 : tr = fr ∨ tc = fc ∨ (fr - tr).natAbs = (fc - tc).natAbs := by
    rcases hal with h | h | h
    · exact Or.inl h.symm
    · exact Or.inr (Or.inl h.symm)
    · exact Or.inr (Or.inr (by omega))
  have h1 := is_path_clear_spec b fr fc tr tc hf ht hne hal
  have h2 := is_path_clear_spec b tr tc fr fc ht hf hne2 hal2
  have hbool : ∀ x y : Bool, (x = true ↔ y = true) → x = y := by decide
  apply hbool
  rw [h1, h2]
  obtain ⟨htr, htc⟩ := path_axis_decomp fr fc tr tc hal
  have hd2 : max (fr - tr).natAbs (fc - tc).natAbs =
      max (tr - fr).natAbs (tc - fc).natAbs := by omega
  have hrd2 : step_dir tr fr = - step_dir fr tr := by
    unfold step_dir
    split_ifs <;> omega
  have hcd2 : step_dir tc fc = - step_dir fc tc := by
    unfold step_dir
    split_ifs <;> omega
  rw [hd2, hrd2, hcd2]
  generalize hs : step_dir fr tr = s at htr ⊢
  generalize hu : step_dir fc tc = u at htc ⊢
  generalize hdd : max (tr - fr).natAbs (tc - fc).natAbs = d at htr htc ⊢
  constructor
  · intro hall k hk1 hk2
    have hcast : ((d - k : Nat) : Int) = (d : Int) - (k : Int) := by omega
    have e1 : tr + (k : Int) * (-s) = fr + ((d - k : Nat) : Int) * s := by
      rw [hcast, htr]; ring
    have e2 : tc + (k : Int) * (-u) = fc + ((d - k : Nat) : Int) * u := by
      rw [hcast, htc]; ring
    rw [e1, e2]
    exact hall (d - k) (by omega) (by omega)
  · intro hall k hk1 hk2
    have hcast : ((d - k : Nat) : Int) = (d : Int) - (k : Int) := by omega
    have e1 : fr + (k : Int) * s = tr + ((d - k : Nat) : Int) * (-s) := by
      rw [hcast, htr]; ring
    have e2 : fc + (k : Int) * u = tc + ((d - k : Nat) : Int) * (-u) := by
      rw [hcast, htc]; ring
    rw [e1, e2]
    exact hall (d - k) (by omega) (by omega)

/-- Witness for C8: the e-file cells e4 and e7 on the initial board (both
directions blocked-free between them is checked the same way). -/
theorem is_path_clear_symmetric_witness :
    is_path_clear new_game.board 4 4 1 4 = is_path_clear new_game.board 1 4 4 4 :=
  is_path_clear_symmetric new_game.board 4 4 1 4 (by decide) (by decide) (by decide)
    (Or.inr (Or.inl rfl))
